import Mathlib

/-!
Verification of the bandmap spot aggregator: a shallow embedding of the
frequency classifier, stream-parser acceptance filters, spot store,
render-loop highlight classification, frequency-poll loop body and the
maidenhead grid decoder, with theorems checking the stated contracts.
-/

/-! ## FrequencyClassifier -/

/-- Outcome of the python float conversion applied to the raw frequency
argument of getband: either a numeric value, or a ValueError
(unparsable string), or a TypeError (wrong type such as a missing value). -/
inductive FreqArg where
  | num (q : ℚ)
  | badValue
  | badType
deriving DecidableEq

/-- Truncation toward zero, the semantics of the python int conversion. -/
def pyTrunc (q : ℚ) : ℤ := if q < 0 then ⌈q⌉ else ⌊q⌋

/-- Embeds getband: converts the argument (substituting 0 on a failed
conversion), scales kHz to Hz by 1000 after integer truncation, then walks a
chain of strictly-bounded range tests, returning the band label of the first
match and the sentinel label otherwise. -/
def getband (freq : FreqArg) : String :=
  let frequency : ℤ :=
    match freq with
    | .num q => pyTrunc q * 1000
    | .badValue => 0
    | .badType => 0
  if 1800000 < frequency ∧ frequency < 2000000 then "160"
  else if 3500000 < frequency ∧ frequency < 4000000 then "80"
  else if 5330000 < frequency ∧ frequency < 5406000 then "60"
  else if 7000000 < frequency ∧ frequency < 7300000 then "40"
  else if 10100000 < frequency ∧ frequency < 10150000 then "30"
  else if 14000000 < frequency ∧ frequency < 14350000 then "20"
  else if 18068000 < frequency ∧ frequency < 18168000 then "17"
  else if 21000000 < frequency ∧ frequency < 21450000 then "15"
  else if 24890000 < frequency ∧ frequency < 24990000 then "12"
  else if 28000000 < frequency ∧ frequency < 29700000 then "10"
  else if 50000000 < frequency ∧ frequency < 54000000 then "6"
  else if 144000000 < frequency ∧ frequency < 148000000 then "2"
  else "0"

/-- The fixed band table of getband as data: lower bound, upper bound, label. -/
def bandTable : List (ℤ × ℤ × String) :=
  [(1800000, 2000000, "160"), (3500000, 4000000, "80"),
   (5330000, 5406000, "60"), (7000000, 7300000, "40"),
   (10100000, 10150000, "30"), (14000000, 14350000, "20"),
   (18068000, 18168000, "17"), (21000000, 21450000, "15"),
   (24890000, 24990000, "12"), (28000000, 29700000, "10"),
   (50000000, 54000000, "6"), (144000000, 148000000, "2")]

/-- Spec-side table lookup: the label of the first range of the table that
strictly contains the frequency, the sentinel label when none does. -/
def lookupBand (k : ℤ) : List (ℤ × ℤ × String) → String
  | [] => "0"
  | r :: rest => if r.1 < k ∧ k < r.2.1 then r.2.2 else lookupBand k rest

/-- Spec-side band classifier over the fixed table. -/
def bandOfSpec (k : ℤ) : String := lookupBand k bandTable

/-- Embeds inband: true when the frequency lies strictly inside one of the
listed general sub-band ranges, mirroring the write-only flag updates of the
source. -/
def inband (freq : ℚ) : Bool :=
  let in_band := false
  let in_band := if 1800 < freq ∧ freq < 2000 then true else in_band
  let in_band := if 3525 < freq ∧ freq < 3600 then true else in_band
  let in_band := if 3800 < freq ∧ freq < 4000 then true else in_band
  let in_band := if 7025 < freq ∧ freq < 7125 then true else in_band
  let in_band := if 7175 < freq ∧ freq < 7300 then true else in_band
  let in_band := if 10100 < freq ∧ freq < 10150 then true else in_band
  let in_band := if 14025 < freq ∧ freq < 14150 then true else in_band
  let in_band := if 14225 < freq ∧ freq < 14350 then true else in_band
  let in_band := if 18068 < freq ∧ freq < 18168 then true else in_band
  let in_band := if 21025 < freq ∧ freq < 21200 then true else in_band
  let in_band := if 21275 < freq ∧ freq < 21450 then true else in_band
  let in_band := if 24890 < freq ∧ freq < 24990 then true else in_band
  let in_band := if 28000 < freq ∧ freq < 29700 then true else in_band
  let in_band := if 50000 < freq ∧ freq < 54000 then true else in_band
  in_band

/-! ## StreamParser acceptance filters -/

/-- Embeds the acceptance chain of the getrbn loop body for one parsed entry:
mode must be CW, the spotter must be trusted, the frequency must be inside a
general sub-band unless out-of-band display is enabled, and the classified
band must be on the allow-list; true means the spot reaches the store upsert. -/
def rbn_accept (localspotters limit_bands : List String) (show_out_of_band : Bool)
    (spotter mode : String) (freq : ℚ) : Bool :=
  if ¬ mode = "CW" then false
  else if ¬ spotter ∈ localspotters then false
  else if inband freq = false ∧ show_out_of_band = false then false
  else decide (getband (FreqArg.num freq) ∈ limit_bands)

/-! ## Render loop highlight classification -/

/-- Embeds comparevfo: absolute difference in kHz between the tuned VFO and
the spot frequency. -/
def comparevfo (the_vfo freq : ℚ) : ℚ :=
  if the_vfo < freq then freq - the_vfo else the_vfo - freq

/-- Embeds alreadyworked over the contact index, an association of band label
to the callsigns already contacted on that band. -/
def alreadyworked (contactlist : List (String × List String))
    (callsign band : String) : Bool :=
  match contactlist.find? (fun p => p.1 == band) with
  | some p => decide (callsign ∈ p.2)
  | none => false

/-- Embeds the style selection of the showspots row loop: successive
overwrites of the style variable, so the last applicable assignment wins. -/
def showspots_style (contactlist : List (String × List String)) (the_vfo : ℚ)
    (callsign band : String) (frequency : ℚ) : String :=
  let style := if inband frequency then "" else ""
  let style := if comparevfo the_vfo frequency < 0.8 then "bold on color(237)" else style
  let style := if comparevfo the_vfo frequency < 0.5 then "bold on color(240)" else style
  let style := if comparevfo the_vfo frequency < 0.2 then "bold on blue" else style
  let style := if alreadyworked contactlist callsign band then "bold on color(88)" else style
  style

/-- Spec-side tier selection by priority, highest first: already worked, then
the three VFO-proximity tiers, then the default. -/
def styleTierSpec (contactlist : List (String × List String)) (the_vfo : ℚ)
    (callsign band : String) (frequency : ℚ) : String :=
  if alreadyworked contactlist callsign band then "bold on color(88)"
  else if comparevfo the_vfo frequency < 0.2 then "bold on blue"
  else if comparevfo the_vfo frequency < 0.5 then "bold on color(240)"
  else if comparevfo the_vfo frequency < 0.8 then "bold on color(237)"
  else ""

/-! ## FrequencyPoll loop body -/

/-- Outcome of one attempt to read the VFO: the combined result of the
receiver-control call and the float conversion of its reply. The try block of
getvfo catches exactly ValueError and TypeError; any other exception from the
call (a communication failure) is uncaught. -/
inductive VfoAttempt where
  | value (v : ℚ)
  | valueError
  | typeError
  | commFailure
deriving DecidableEq

/-- Embeds one iteration of the getvfo loop body: ok means the loop stores
the value and continues, error means an uncaught exception propagates and the
loop terminates. -/
def getvfo_iter : VfoAttempt → Except Unit ℚ
  | .value v => .ok (v / 1000)
  | .valueError => .ok 0
  | .typeError => .ok 0
  | .commFailure => .error ()

/-! ## SpotStore -/

/-- A row of the spots table: synthetic integer key, callsign, insertion or
update timestamp in seconds, frequency in kHz, band label. -/
structure Spot where
  id : ℕ
  callsign : String
  date_time : ℕ
  frequency : ℚ
  band : String
deriving DecidableEq

/-- The TTL sweep executed at the start of add_spot: deletes every row whose
age in seconds exceeds the configured threshold. -/
def sweep (store : List Spot) (now ttl : ℕ) : List Spot :=
  store.filter (fun r => ! decide (now - r.date_time > ttl))

/-- The row count of the callsign lookup query of add_spot. -/
def countCallsign (store : List Spot) (c : String) : ℕ :=
  store.countP (fun r => r.callsign == c)

/-- Embeds add_spot: sweep expired rows, then insert a fresh row when no row
carries the callsign and otherwise overwrite frequency, timestamp and band of
every row carrying it. -/
def add_spot (store : List Spot) (now nextId : ℕ) (callsign : String)
    (freq : ℚ) (band : String) (ttl : ℕ) : List Spot :=
  let sw := sweep store now ttl
  if countCallsign sw callsign = 0 then
    sw ++ [{ id := nextId, callsign := callsign, date_time := now,
             frequency := freq, band := band }]
  else
    sw.map (fun r =>
      if r.callsign = callsign then
        { r with frequency := freq, date_time := now, band := band }
      else r)

/-- One upsert request against the store. -/
structure SpotOp where
  now : ℕ
  nextId : ℕ
  callsign : String
  freq : ℚ
  band : String
  ttl : ℕ

/-- Runs a sequence of upserts against the initially empty store. -/
def runOps (ops : List SpotOp) : List Spot :=
  ops.foldl
    (fun st op => add_spot st op.now op.nextId op.callsign op.freq op.band op.ttl) []

/-- The ordered-by-timestamp fetchone of prune_oldest_spot: the first row of
minimal timestamp, none when the table is empty. -/
def selectOldest : List Spot → Option Spot
  | [] => none
  | s :: rest =>
      some (rest.foldl (fun best r => if r.date_time < best.date_time then r else best) s)

/-- Embeds prune_oldest_spot: fetch the oldest row and delete by its key;
none models the uncaught error raised when destructuring an empty fetch. -/
def prune_oldest_spot (store : List Spot) : Option (List Spot) :=
  match selectOldest store with
  | none => none
  | some oldest => some (store.filter (fun s => ! (s.id == oldest.id)))

/-- A concrete two-row store used to instantiate store theorems. -/
def demoStore : List Spot :=
  [{ id := 1, callsign := "A1A", date_time := 7, frequency := 7030, band := "40" },
   { id := 2, callsign := "B2B", date_time := 3, frequency := 14030, band := "20" }]

/-! ## GeoFilter grid decoder -/

/-- The arithmetic body of gridtolatlon on the canonical (stripped and
uppercased) character list: coarse field from the first two characters, then
the refinements guarded by the length thresholds of the source, including its
use of the raw character code (without digit offset) for characters 7 and 8. -/
def gridDecode (l : List Char) : ℚ × ℚ :=
  let n := l.length
  let lon : ℚ := (((l.getD 0 'A').toNat : ℚ) - 65) * 20 - 180
  let lat : ℚ := (((l.getD 1 'A').toNat : ℚ) - 65) * 10 - 90
  let lon := if 4 ≤ n then lon + (((l.getD 2 'A').toNat : ℚ) - 48) * 2 else lon
  let lat := if 4 ≤ n then lat + (((l.getD 3 'A').toNat : ℚ) - 48) else lat
  let lon := if 6 ≤ n then lon + (((l.getD 4 'A').toNat : ℚ) - 65) / 12 + 1 / 24 else lon
  let lat := if 6 ≤ n then lat + (((l.getD 5 'A').toNat : ℚ) - 65) / 24 + 1 / 48 else lat
  let lon := if 8 ≤ n then lon + ((l.getD 6 'A').toNat : ℚ) * 5 / 600 else lon
  let lat := if 8 ≤ n then lat + ((l.getD 7 'A').toNat : ℚ) * 2.5 / 600 else lat
  (lat, lon)

/-- Embeds gridtolatlon on the canonical character list, keeping the guard of
the source verbatim: the early degenerate return fires only when the length
is outside 2 to 8 and also even; a fall-through with fewer than 2 characters
hits an out-of-range index, modelled as none. -/
def gridtolatlonList (l : List Char) : Option (ℚ × ℚ) :=
  let n := l.length
  if (¬ (n ≤ 8 ∧ 2 ≤ n)) ∧ n % 2 = 0 then some (0, 0)
  else if n < 2 then none
  else some (gridDecode l)

/-- Embeds gridtolatlon on a string: strip, uppercase, then decode. -/
def gridtolatlon (maiden : String) : Option (ℚ × ℚ) :=
  gridtolatlonList maiden.trim.toUpper.data

/-- A field letter of the maidenhead scheme, A through R. -/
def fieldOK (c : Char) : Bool := decide (65 ≤ c.toNat ∧ c.toNat ≤ 82)

/-- A digit of the maidenhead scheme, 0 through 9. -/
def digitOK (c : Char) : Bool := decide (48 ≤ c.toNat ∧ c.toNat ≤ 57)

/-- A subsquare letter of the maidenhead scheme, A through X. -/
def subsquareOK (c : Char) : Bool := decide (65 ≤ c.toNat ∧ c.toNat ≤ 88)

/-- A valid grid code: even length 2 to 8 with letters and digits in the
positions the maidenhead scheme prescribes. -/
def validMaiden : List Char → Bool
  | [a, b] => fieldOK a && fieldOK b
  | [a, b, c, d] => fieldOK a && fieldOK b && digitOK c && digitOK d
  | [a, b, c, d, e, f] =>
      fieldOK a && fieldOK b && digitOK c && digitOK d &&
        subsquareOK e && subsquareOK f
  | [a, b, c, d, e, f, g, h] =>
      fieldOK a && fieldOK b && digitOK c && digitOK d &&
        subsquareOK e && subsquareOK f && digitOK g && digitOK h
  | _ => false

/-! ## Theorems -/

/-- C10: getband is total over arbitrary input: when the numeric conversion
fails with a ValueError or a TypeError it substitutes zero and returns the
sentinel label. -/
theorem getband_conversion_failure_zero :
    getband FreqArg.badValue = "0" ∧ getband FreqArg.badType = "0" := by
  decide

/-- C3 counterexample: a communication failure of the receiver-control call
is not caught by the getvfo loop body, so the claim that every failure sets
the VFO to zero and continues is false. -/
theorem getvfo_comm_failure_propagates :
    getvfo_iter VfoAttempt.commFailure = Except.error () ∧
      ¬ getvfo_iter VfoAttempt.commFailure = Except.ok 0 := by
  refine ⟨rfl, fun h => ?_⟩
  exact Except.noConfusion h

/-- C3 amended: a conversion failure (ValueError or TypeError) sets the VFO
to zero and the loop continues, and a successful read stores the value scaled
to kHz, but a communication failure propagates and terminates the loop. -/
theorem getvfo_iter_error_handling :
    getvfo_iter VfoAttempt.valueError = Except.ok 0 ∧
    getvfo_iter VfoAttempt.typeError = Except.ok 0 ∧
    getvfo_iter VfoAttempt.commFailure = Except.error () ∧
    ∀ v : ℚ, getvfo_iter (VfoAttempt.value v) = Except.ok (v / 1000) := by
  refine ⟨rfl, rfl, rfl, fun v => rfl⟩

/-- C4 counterexample: 14025 kHz is on the excluded lower boundary of the
general sub-band test, so a trusted CW spot at exactly 14025 kHz is rejected
when out-of-band display is disabled, contradicting the claim. -/
theorem rbn_14025_rejected :
    inband 14025 = false ∧
    rbn_accept ["W6YX"] ["80", "40", "20", "15", "10", "6"] false
      "W6YX" "CW" 14025 = false := by
  decide

/-- C4 amended: the general sub-band test is strict at both bounds, so
inband is false at exactly 14025 kHz and the trusted CW feed line at 14025 is
accepted only when out-of-band display is enabled; any frequency strictly
between 14025 and 14150, such as 14026, passes inband and is accepted even
with out-of-band display disabled. -/
theorem rbn_boundary_amended :
    inband 14025 = false ∧
    rbn_accept ["W6YX"] ["80", "40", "20", "15", "10", "6"] true
      "W6YX" "CW" 14025 = true ∧
    rbn_accept ["W6YX"] ["80", "40", "20", "15", "10", "6"] false
      "W6YX" "CW" 14026 = true ∧
    ∀ q : ℚ, 14025 < q → q < 14150 → inband q = true := by
  refine ⟨by decide, by decide, by decide, ?_⟩
  intro q h1 h2
  have hq : (14025 : ℚ) < q ∧ q < 14150 := ⟨h1, h2⟩
  simp only [inband]
  rw [if_pos hq]
  split_ifs <;> rfl

/-- C4 witness: the amended general sub-band characterization applied at the
concrete interior frequency 14100 kHz. -/
theorem rbn_boundary_amended_witness : inband 14100 = true :=
  rbn_boundary_amended.2.2.2 14100 (by norm_num) (by norm_num)

/-- C5 counterexample: the band ranges of getband exclude their lower bound,
so 1800 kHz classifies to the sentinel label and not to the 160 meter label
the inclusive-open claim requires. -/
theorem getband_lower_bound_excluded :
    getband (FreqArg.num 1800) = "0" ∧
      ¬ getband (FreqArg.num 1800) = "160" := by
  decide

/-- C5 amended: getband agrees with the table lookup whose ranges exclude
both bounds (strict inequalities on each side), frequencies outside every
range classify to the sentinel label via the lookup default, and the table
ranges are pairwise disjoint, so every frequency maps to exactly one label. -/
theorem getband_exclusive_partition :
    (∀ q : ℚ, getband (FreqArg.num q) = bandOfSpec (pyTrunc q * 1000)) ∧
    (∀ k : ℤ, ∀ r1 ∈ bandTable, ∀ r2 ∈ bandTable,
      r1.1 < k → k < r1.2.1 → r2.1 < k → k < r2.2.1 → r1 = r2) := by
  constructor
  · intro q
    rfl
  · intro k r1 h1 r2 h2 a1 a2 b1 b2
    simp only [bandTable, List.mem_cons, List.not_mem_nil, or_false] at h1 h2
    rcases h1 with rfl | rfl | rfl | rfl | rfl | rfl | rfl | rfl | rfl | rfl | rfl | rfl <;>
      rcases h2 with rfl | rfl | rfl | rfl | rfl | rfl | rfl | rfl | rfl | rfl | rfl | rfl <;>
        simp_all <;> omega

/-- C5 witness: the exclusive-range characterization applied at the concrete
frequency 1900 kHz, inside the 160 meter range. -/
theorem getband_exclusive_partition_witness :
    getband (FreqArg.num 1900) = bandOfSpec (pyTrunc 1900 * 1000) ∧
    ((1800000, 2000000, "160") : ℤ × ℤ × String) = (1800000, 2000000, "160") :=
  ⟨getband_exclusive_partition.1 1900,
   getband_exclusive_partition.2 1900000 (1800000, 2000000, "160") (by decide)
     (1800000, 2000000, "160") (by decide) (by decide) (by decide)
     (by decide) (by decide)⟩

/-- C8: the showspots style selection realizes the priority order of the
spec tiers (already worked beats the 0.2, 0.5 and 0.8 kHz proximity tiers,
which beat the default), and in particular a record both already worked and
within 0.1 kHz of the VFO is classified already worked. -/
theorem showspots_style_priority :
    (∀ contactlist the_vfo callsign band frequency,
      showspots_style contactlist the_vfo callsign band frequency =
        styleTierSpec contactlist the_vfo callsign band frequency) ∧
    (∀ contactlist the_vfo callsign band frequency,
      alreadyworked contactlist callsign band = true →
      comparevfo the_vfo frequency < 1 / 10 →
      showspots_style contactlist the_vfo callsign band frequency =
        "bold on color(88)") := by
  constructor
  · intro cl v c b f
    simp only [showspots_style, styleTierSpec]
    by_cases haw : alreadyworked cl c b = true <;>
      by_cases h2 : comparevfo v f < 0.2 <;>
        by_cases h5 : comparevfo v f < 0.5 <;>
          by_cases h8 : comparevfo v f < 0.8 <;>
            simp [haw, h2, h5, h8]
  · intro cl v c b f haw _
    simp [showspots_style, haw]

/-- C8 witness: a spot both already worked on its band and 0.05 kHz from the
VFO receives the already-worked style. -/
theorem showspots_style_priority_witness :
    showspots_style [("20", ["N0CALL"])] 14025 "N0CALL" "20" (14025 + 1 / 20) =
      "bold on color(88)" :=
  showspots_style_priority.2 [("20", ["N0CALL"])] 14025 "N0CALL" "20"
    (14025 + 1 / 20) (by decide) (by norm_num [comparevfo])

/-- The TTL sweep never increases the row count of any callsign. -/
theorem countCallsign_sweep_le (store : List Spot) (now ttl : ℕ) (c : String) :
    countCallsign (sweep store now ttl) c ≤ countCallsign store c :=
  List.Sublist.countP_le _ (List.filter_sublist store)

/-- The overwrite branch of add_spot preserves every callsign row count. -/
theorem countCallsign_update (sw : List Spot) (callsign : String) (freq : ℚ)
    (band : String) (now : ℕ) (c : String) :
    countCallsign
      (sw.map (fun r =>
        if r.callsign = callsign then
          { r with frequency := freq, date_time := now, band := band }
        else r)) c = countCallsign sw c := by
  induction sw with
  | nil => rfl
  | cons a l ih =>
    simp only [countCallsign, List.map_cons, List.countP_cons] at *
    by_cases h : a.callsign = callsign
    · simp only [if_pos h, ih]
    · simp only [if_neg h, ih]

/-- One add_spot preserves the at-most-one-row-per-callsign invariant. -/
theorem add_spot_preserves_unique (store : List Spot) (now nextId : ℕ)
    (callsign : String) (freq : ℚ) (band : String) (ttl : ℕ)
    (h : ∀ c, countCallsign store c ≤ 1) :
    ∀ c, countCallsign (add_spot store now nextId callsign freq band ttl) c ≤ 1 := by
  intro c
  have hsw : countCallsign (sweep store now ttl) c ≤ 1 :=
    le_trans (countCallsign_sweep_le store now ttl c) (h c)
  simp only [add_spot]
  by_cases h0 : countCallsign (sweep store now ttl) callsign = 0
  · rw [if_pos h0]
    simp only [countCallsign, List.countP_append, List.countP_cons, List.countP_nil] at *
    by_cases hc : callsign = c
    · subst hc
      simp only [beq_self_eq_true, if_pos]
      omega
    · have hfalse : (callsign == c) = false := by
        simp only [beq_eq_false_iff_ne, ne_eq]
        exact hc
      simp only [hfalse, Bool.false_eq_true, if_false]
      omega
  · rw [if_neg h0, countCallsign_update]
    exact hsw

/-- Any sequence of upserts from the empty store keeps at most one row per
callsign. -/
theorem runOps_unique (ops : List SpotOp) :
    ∀ c, countCallsign (runOps ops) c ≤ 1 := by
  suffices h : ∀ (ops : List SpotOp) (st : List Spot),
      (∀ c, countCallsign st c ≤ 1) →
      ∀ c, countCallsign
        (ops.foldl (fun st op =>
          add_spot st op.now op.nextId op.callsign op.freq op.band op.ttl) st) c ≤ 1 by
    exact h ops [] (fun c => Nat.le_of_lt_succ (by simp [countCallsign]))
  intro ops
  induction ops with
  | nil => intro st h c; exact h c
  | cons op rest ih =>
    intro st h c
    exact ih _ (add_spot_preserves_unique st op.now op.nextId op.callsign
      op.freq op.band op.ttl h) c

/-- C1: every sequence of upserts from the empty store leaves at most one
live row per callsign; when a callsign already has a live row after the TTL
sweep, add_spot overwrites frequency, timestamp and band in place without
inserting (so this holds for any band value of the new report); and two
upserts for one callsign leave exactly the single row with the second values. -/
theorem add_spot_single_record_per_callsign :
    (∀ (ops : List SpotOp) (c : String), countCallsign (runOps ops) c ≤ 1) ∧
    (∀ (store : List Spot) (now nextId : ℕ) (c : String) (f : ℚ)
        (b : String) (ttl : ℕ),
      0 < countCallsign (sweep store now ttl) c →
      add_spot store now nextId c f b ttl =
        (sweep store now ttl).map (fun r =>
          if r.callsign = c then
            { r with frequency := f, date_time := now, band := b }
          else r) ∧
      (add_spot store now nextId c f b ttl).length =
        (sweep store now ttl).length ∧
      countCallsign (add_spot store now nextId c f b ttl) c =
        countCallsign (sweep store now ttl) c) ∧
    add_spot (add_spot [] 0 1 "N0CALL" 7030 "40" 600) 5 2 "N0CALL" 7200 "40" 600 =
      [{ id := 1, callsign := "N0CALL", date_time := 5, frequency := 7200,
         band := "40" }] := by
  refine ⟨fun ops c => runOps_unique ops c, ?_, by decide⟩
  intro store now nextId c f b ttl h
  have h0 : ¬ countCallsign (sweep store now ttl) c = 0 := by omega
  refine ⟨?_, ?_, ?_⟩
  · simp only [add_spot]
    rw [if_neg h0]
  · simp only [add_spot]
    rw [if_neg h0, List.length_map]
  · simp only [add_spot]
    rw [if_neg h0, countCallsign_update]

/-- C1 witness: the overwrite branch applied to a store holding one live row
for the callsign. -/
theorem add_spot_single_record_per_callsign_witness :
    add_spot [{ id := 1, callsign := "N0CALL", date_time := 0, frequency := 7030,
                band := "40" }] 5 2 "N0CALL" 7200 "40" 600 =
      (sweep [{ id := 1, callsign := "N0CALL", date_time := 0, frequency := 7030,
                band := "40" }] 5 600).map (fun r =>
        if r.callsign = "N0CALL" then
          { r with frequency := 7200, date_time := 5, band := "40" }
        else r) :=
  (add_spot_single_record_per_callsign.2.1
    [{ id := 1, callsign := "N0CALL", date_time := 0, frequency := 7030,
       band := "40" }] 5 2 "N0CALL" 7200 "40" 600 (by decide)).1

/-- The fold that models the ordered fetchone returns a member of the list
that carries a minimal timestamp. -/
theorem foldl_oldest_spec (l : List Spot) :
    ∀ a : Spot,
      (l.foldl (fun best r => if r.date_time < best.date_time then r else best) a)
          ∈ a :: l ∧
      (l.foldl (fun best r => if r.date_time < best.date_time then r else best)
          a).date_time ≤ a.date_time ∧
      ∀ x ∈ l,
        (l.foldl (fun best r => if r.date_time < best.date_time then r else best)
          a).date_time ≤ x.date_time := by
  induction l with
  | nil =>
    intro a
    exact ⟨List.mem_cons_self a [], le_refl _, by simp⟩
  | cons r l ih =>
    intro a
    simp only [List.foldl_cons]
    obtain ⟨hmem, hle, hall⟩ := ih (if r.date_time < a.date_time then r else a)
    refine ⟨?_, ?_, ?_⟩
    · rcases List.mem_cons.mp hmem with h | h
      · rw [h]
        by_cases hc : r.date_time < a.date_time
        · simp [hc]
        · simp [hc]
      · exact List.mem_cons_of_mem _ (List.mem_cons_of_mem _ h)
    · refine le_trans hle ?_
      by_cases hc : r.date_time < a.date_time
      · rw [if_pos hc]; omega
      · rw [if_neg hc]
    · intro x hx
      rcases List.mem_cons.mp hx with h | h
      · rw [h]
        refine le_trans hle ?_
        by_cases hc : r.date_time < a.date_time
        · rw [if_pos hc]
        · rw [if_neg hc]; omega
      · exact hall x h

/-- Under pairwise distinct keys, deleting by the key of a member shortens
the list by exactly one. -/
theorem filter_ne_length (store : List Spot) (r : Spot)
    (hmem : r ∈ store) (hids : store.Pairwise (fun a b => a.id ≠ b.id)) :
    (store.filter (fun s => ! (s.id == r.id))).length + 1 = store.length := by
  induction store with
  | nil => cases hmem
  | cons a l ih =>
    obtain ⟨ha, hl⟩ := List.pairwise_cons.mp hids
    rcases List.mem_cons.mp hmem with h | h
    · subst h
      have hall : l.filter (fun s => ! (s.id == r.id)) = l := by
        rw [List.filter_eq_self]
        intro s hs
        simp only [Bool.not_eq_eq_eq_not, Bool.not_true, beq_eq_false_iff_ne, ne_eq]
        exact fun he => (ha s hs) he.symm
      simp [List.filter_cons, hall]
    · have hk : (! (a.id == r.id)) = true := by
        simp only [Bool.not_eq_eq_eq_not, Bool.not_true, beq_eq_false_iff_ne, ne_eq]
        exact ha r h
      have := ih h hl
      simp only [List.filter_cons, hk, if_pos, List.length_cons]
      omega

/-- C7: on a non-empty store with distinct keys, prune_oldest_spot removes
exactly one row, that row has a minimal timestamp over the whole store
irrespective of band or frequency, and every other row survives unchanged. -/
theorem prune_oldest_spot_removes_oldest (store : List Spot)
    (hne : ¬ store = [])
    (hids : store.Pairwise (fun a b => a.id ≠ b.id)) :
    ∃ r ∈ store,
      (∀ s ∈ store, r.date_time ≤ s.date_time) ∧
      prune_oldest_spot store =
        some (store.filter (fun s => ! (s.id == r.id))) ∧
      (store.filter (fun s => ! (s.id == r.id))).length + 1 = store.length ∧
      (∀ s ∈ store, ¬ s.id = r.id →
        s ∈ store.filter (fun s => ! (s.id == r.id))) ∧
      (∀ s ∈ store.filter (fun s => ! (s.id == r.id)), s ∈ store) := by
  rcases store with _ | ⟨a, l⟩
  · exact absurd rfl hne
  obtain ⟨hmem, hlea, hall⟩ := foldl_oldest_spec l a
  refine ⟨_, hmem, ?_, rfl, ?_, ?_, ?_⟩
  · intro s hs
    rcases List.mem_cons.mp hs with h | h
    · rw [h]; exact hlea
    · exact hall s h
  · exact filter_ne_length (a :: l) _ hmem hids
  · intro s hs hneq
    rw [List.mem_filter]
    refine ⟨hs, ?_⟩
    simp only [Bool.not_eq_eq_eq_not, Bool.not_true, beq_eq_false_iff_ne, ne_eq]
    exact hneq
  · intro s hs
    exact (List.mem_filter.mp hs).1

/-- C7 witness: pruning a concrete two-row store removes the older row. -/
theorem prune_oldest_spot_removes_oldest_witness :
    ∃ r ∈ demoStore,
      (∀ s ∈ demoStore, r.date_time ≤ s.date_time) ∧
      prune_oldest_spot demoStore =
        some (demoStore.filter (fun s => ! (s.id == r.id))) ∧
      (demoStore.filter (fun s => ! (s.id == r.id))).length + 1 =
        demoStore.length ∧
      (∀ s ∈ demoStore, ¬ s.id = r.id →
        s ∈ demoStore.filter (fun s => ! (s.id == r.id))) ∧
      (∀ s ∈ demoStore.filter (fun s => ! (s.id == r.id)), s ∈ demoStore) :=
  prune_oldest_spot_removes_oldest demoStore (by decide) (by decide)

/-- C9: prune_oldest_spot raises on exactly the empty store: the fetch of the
oldest row yields none and the destructuring fails, while any non-empty store
makes the error branch unreachable and the deletion returns normally. -/
theorem prune_oldest_spot_none_iff_empty (store : List Spot) :
    prune_oldest_spot store = none ↔ store = [] := by
  cases store with
  | nil => simp [prune_oldest_spot, selectOldest]
  | cons a l => simp [prune_oldest_spot, selectOldest]

/-- C2 code bug evidence: the malformed-input guard of gridtolatlon fires
only when the length is both outside 2 to 8 and even, so the odd-length code
of three characters falls through and is decoded from its first two
characters instead of yielding the degenerate coordinate, and a one-character
code reaches an out-of-range index instead of returning at all. -/
theorem gridtolatlon_malformed_not_degenerate :
    gridtolatlonList ['A', 'A', '0'] = some (-90, -180) ∧
    ¬ gridtolatlonList ['A', 'A', '0'] = some (0, 0) ∧
    gridtolatlonList ['A'] = none := by
  have hA : 'A'.toNat = 65 := rfl
  refine ⟨?_, ?_, ?_⟩
  · simp only [gridtolatlonList, gridDecode, List.getD_cons_zero, List.getD_cons_succ, hA]
    norm_num
  · simp only [gridtolatlonList, gridDecode, List.getD_cons_zero, List.getD_cons_succ, hA]
    norm_num
  · simp only [gridtolatlonList]
    norm_num

/-- C6 counterexample: the valid eight-character code RR99XX99 decodes to a
latitude above 90 and a longitude above 180, because the last refinement uses
the raw character codes, so the claimed coordinate-space bounds fail. -/
theorem gridtolatlon_valid_out_of_range :
    validMaiden ['R', 'R', '9', '9', 'X', 'X', '9', '9'] = true ∧
    gridtolatlonList ['R', 'R', '9', '9', 'X', 'X', '9', '9'] =
      some (5413 / 60, 5413 / 30) ∧
    ¬ ((5413 / 60 : ℚ) ≤ 90) ∧ ¬ ((5413 / 30 : ℚ) ≤ 180) := by
  have hR : 'R'.toNat = 82 := rfl
  have hX : 'X'.toNat = 88 := rfl
  have h9 : '9'.toNat = 57 := rfl
  refine ⟨by decide, ?_, by norm_num, by norm_num⟩
  simp only [gridtolatlonList, gridDecode, List.getD_cons_zero, List.getD_cons_succ,
    hR, hX, h9]
  norm_num

/-- C6 amended: decoding any valid grid code is deterministic, returns a
coordinate (never the error branch), and stays within the widened bounds the
decoder actually attains: latitude in the interval from -90 to 5413/60 and
longitude in the interval from -180 to 5413/30. -/
theorem gridtolatlon_valid_bounds (l : List Char) (h : validMaiden l = true) :
    (gridtolatlonList l).isSome = true ∧
    -90 ≤ ((gridtolatlonList l).getD (0, 0)).1 ∧
    ((gridtolatlonList l).getD (0, 0)).1 ≤ 5413 / 60 ∧
    -180 ≤ ((gridtolatlonList l).getD (0, 0)).2 ∧
    ((gridtolatlonList l).getD (0, 0)).2 ≤ 5413 / 30 := by
  rcases l with _ | ⟨a, _ | ⟨b, _ | ⟨c, _ | ⟨d, _ | ⟨e, _ | ⟨f, _ | ⟨g, _ | ⟨h8, _ | ⟨i, t⟩⟩⟩⟩⟩⟩⟩⟩⟩
  · exact Bool.noConfusion h
  · exact Bool.noConfusion h
  · simp only [validMaiden, fieldOK, Bool.and_eq_true, decide_eq_true_eq] at h
    obtain ⟨ha, hb⟩ := h
    have hval : gridtolatlonList [a, b] =
        some (((b.toNat : ℚ) - 65) * 10 - 90, ((a.toNat : ℚ) - 65) * 20 - 180) := by
      simp only [gridtolatlonList, gridDecode, List.getD_cons_zero, List.getD_cons_succ,
        List.length_cons, List.length_nil]
      norm_num
    rw [hval]
    simp only [Option.isSome_some, Option.getD_some]
    have ha1 : (65 : ℚ) ≤ a.toNat := by exact_mod_cast ha.1
    have ha2 : (a.toNat : ℚ) ≤ 82 := by exact_mod_cast ha.2
    have hb1 : (65 : ℚ) ≤ b.toNat := by exact_mod_cast hb.1
    have hb2 : (b.toNat : ℚ) ≤ 82 := by exact_mod_cast hb.2
    refine ⟨trivial, ?_, ?_, ?_, ?_⟩ <;> linarith
  · exact Bool.noConfusion h
  · simp only [validMaiden, fieldOK, digitOK, Bool.and_eq_true, decide_eq_true_eq] at h
    obtain ⟨⟨⟨ha, hb⟩, hc⟩, hd⟩ := h
    have hval : gridtolatlonList [a, b, c, d] =
        some (((b.toNat : ℚ) - 65) * 10 - 90 + ((d.toNat : ℚ) - 48),
          ((a.toNat : ℚ) - 65) * 20 - 180 + ((c.toNat : ℚ) - 48) * 2) := by
      simp only [gridtolatlonList, gridDecode, List.getD_cons_zero, List.getD_cons_succ,
        List.length_cons, List.length_nil]
      norm_num
    rw [hval]
    simp only [Option.isSome_some, Option.getD_some]
    have ha1 : (65 : ℚ) ≤ a.toNat := by exact_mod_cast ha.1
    have ha2 : (a.toNat : ℚ) ≤ 82 := by exact_mod_cast ha.2
    have hb1 : (65 : ℚ) ≤ b.toNat := by exact_mod_cast hb.1
    have hb2 : (b.toNat : ℚ) ≤ 82 := by exact_mod_cast hb.2
    have hc1 : (48 : ℚ) ≤ c.toNat := by exact_mod_cast hc.1
    have hc2 : (c.toNat : ℚ) ≤ 57 := by exact_mod_cast hc.2
    have hd1 : (48 : ℚ) ≤ d.toNat := by exact_mod_cast hd.1
    have hd2 : (d.toNat : ℚ) ≤ 57 := by exact_mod_cast hd.2
    refine ⟨trivial, ?_, ?_, ?_, ?_⟩ <;> linarith
  · exact Bool.noConfusion h
  · simp only [validMaiden, fieldOK, digitOK, subsquareOK, Bool.and_eq_true,
      decide_eq_true_eq] at h
    obtain ⟨⟨⟨⟨⟨ha, hb⟩, hc⟩, hd⟩, he⟩, hf⟩ := h
    have hval : gridtolatlonList [a, b, c, d, e, f] =
        some (((b.toNat : ℚ) - 65) * 10 - 90 + ((d.toNat : ℚ) - 48) +
            ((f.toNat : ℚ) - 65) / 24 + 1 / 48,
          ((a.toNat : ℚ) - 65) * 20 - 180 + ((c.toNat : ℚ) - 48) * 2 +
            ((e.toNat : ℚ) - 65) / 12 + 1 / 24) := by
      simp only [gridtolatlonList, gridDecode, List.getD_cons_zero, List.getD_cons_succ,
        List.length_cons, List.length_nil]
      norm_num
    rw [hval]
    simp only [Option.isSome_some, Option.getD_some]
    have ha1 : (65 : ℚ) ≤ a.toNat := by exact_mod_cast ha.1
    have ha2 : (a.toNat : ℚ) ≤ 82 := by exact_mod_cast ha.2
    have hb1 : (65 : ℚ) ≤ b.toNat := by exact_mod_cast hb.1
    have hb2 : (b.toNat : ℚ) ≤ 82 := by exact_mod_cast hb.2
    have hc1 : (48 : ℚ) ≤ c.toNat := by exact_mod_cast hc.1
    have hc2 : (c.toNat : ℚ) ≤ 57 := by exact_mod_cast hc.2
    have hd1 : (48 : ℚ) ≤ d.toNat := by exact_mod_cast hd.1
    have hd2 : (d.toNat : ℚ) ≤ 57 := by exact_mod_cast hd.2
    have he1 : (65 : ℚ) ≤ e.toNat := by exact_mod_cast he.1
    have he2 : (e.toNat : ℚ) ≤ 88 := by exact_mod_cast he.2
    have hf1 : (65 : ℚ) ≤ f.toNat := by exact_mod_cast hf.1
    have hf2 : (f.toNat : ℚ) ≤ 88 := by exact_mod_cast hf.2
    refine ⟨trivial, ?_, ?_, ?_, ?_⟩ <;> linarith
  · exact Bool.noConfusion h
  · simp only [validMaiden, fieldOK, digitOK, subsquareOK, Bool.and_eq_true,
      decide_eq_true_eq] at h
    obtain ⟨⟨⟨⟨⟨⟨⟨ha, hb⟩, hc⟩, hd⟩, he⟩, hf⟩, hg⟩, hh⟩ := h
    have hval : gridtolatlonList [a, b, c, d, e, f, g, h8] =
        some (((b.toNat : ℚ) - 65) * 10 - 90 + ((d.toNat : ℚ) - 48) +
            ((f.toNat : ℚ) - 65) / 24 + 1 / 48 + (h8.toNat : ℚ) * 2.5 / 600,
          ((a.toNat : ℚ) - 65) * 20 - 180 + ((c.toNat : ℚ) - 48) * 2 +
            ((e.toNat : ℚ) - 65) / 12 + 1 / 24 + (g.toNat : ℚ) * 5 / 600) := by
      simp only [gridtolatlonList, gridDecode, List.getD_cons_zero, List.getD_cons_succ,
        List.length_cons, List.length_nil]
      norm_num
    rw [hval]
    simp only [Option.isSome_some, Option.getD_some]
    have ha1 : (65 : ℚ) ≤ a.toNat := by exact_mod_cast ha.1
    have ha2 : (a.toNat : ℚ) ≤ 82 := by exact_mod_cast ha.2
    have hb1 : (65 : ℚ) ≤ b.toNat := by exact_mod_cast hb.1
    have hb2 : (b.toNat : ℚ) ≤ 82 := by exact_mod_cast hb.2
    have hc1 : (48 : ℚ) ≤ c.toNat := by exact_mod_cast hc.1
    have hc2 : (c.toNat : ℚ) ≤ 57 := by exact_mod_cast hc.2
    have hd1 : (48 : ℚ) ≤ d.toNat := by exact_mod_cast hd.1
    have hd2 : (d.toNat : ℚ) ≤ 57 := by exact_mod_cast hd.2
    have he1 : (65 : ℚ) ≤ e.toNat := by exact_mod_cast he.1
    have he2 : (e.toNat : ℚ) ≤ 88 := by exact_mod_cast he.2
    have hf1 : (65 : ℚ) ≤ f.toNat := by exact_mod_cast hf.1
    have hf2 : (f.toNat : ℚ) ≤ 88 := by exact_mod_cast hf.2
    have hg1 : (48 : ℚ) ≤ g.toNat := by exact_mod_cast hg.1
    have hg2 : (g.toNat : ℚ) ≤ 57 := by exact_mod_cast hg.2
    have hh1 : (48 : ℚ) ≤ h8.toNat := by exact_mod_cast hh.1
    have hh2 : (h8.toNat : ℚ) ≤ 57 := by exact_mod_cast hh.2
    refine ⟨trivial, ?_, ?_, ?_, ?_⟩ <;> linarith
  · exact Bool.noConfusion h

/-- C6 witness: the amended bounds applied to the concrete valid code AA. -/
theorem gridtolatlon_valid_bounds_witness :
    (gridtolatlonList ['A', 'A']).isSome = true ∧
    -90 ≤ ((gridtolatlonList ['A', 'A']).getD (0, 0)).1 ∧
    ((gridtolatlonList ['A', 'A']).getD (0, 0)).1 ≤ 5413 / 60 ∧
    -180 ≤ ((gridtolatlonList ['A', 'A']).getD (0, 0)).2 ∧
    ((gridtolatlonList ['A', 'A']).getD (0, 0)).2 ≤ 5413 / 30 :=
  gridtolatlon_valid_bounds ['A', 'A'] (by decide)
